import Mathlib

/-!
Shallow embedding of `src/third_party/vello/src/encoding.rs`, the translation
shim between the Skia host's `ffi` value types and the external
`vello_encoding` engine.  Rust panics are modelled by `none` / dedicated
`panic` constructors; stateful code is modelled by explicit state passing.

Numeric model: the shim performs no floating-point arithmetic — every scalar
is only copied, or widened from `f32` to `f64` (an exact, injective
conversion).  Both float widths are therefore modelled by one scalar carrier
`Scalar := Int`; the widening conversions become the identity.  Rust `u8`
bytes and `u32` counts are modelled by `Nat`.
-/

namespace SkiaVello

/-- Scalar carrier for `f32`/`f64` values (see the file comment: the shim only
copies scalars, so the carrier's arithmetic is never used). -/
abbrev Scalar := Int

/-- Rust `u8` byte values; the shim only copies bytes. -/
abbrev Byte := Nat

/-- Modelled from the spec: the host `ffi` bridge (whose declarations are not
under `src/`) supplies points with `f32` coordinates (`ffi::Point`). -/
structure FfiPoint where
  x : Scalar
  y : Scalar
  deriving DecidableEq

/-- `kurbo::Point` (`f64` coordinates). -/
structure Point where
  x : Scalar
  y : Scalar
  deriving DecidableEq

/-- `impl From<&ffi::Point> for Point` (encoding.rs lines 262-266):
`Point::new(src.x.into(), src.y.into())`; the `f32 → f64` widening is exact
and is modelled as the identity on the shared scalar carrier. -/
def Point.fromFfi (src : FfiPoint) : Point :=
  ⟨src.x, src.y⟩

/-- Modelled from the spec: the `ffi` path-verb enum.  The spec lists the
verbs move/line/quad/cubic/close; the shim's `match` has a reachable
catch-all arm, so any out-of-range representation value is modelled by
`invalid tag`. -/
inductive PathVerb where
  | moveTo
  | lineTo
  | quadTo
  | curveTo
  | close
  | invalid (tag : Nat)
  deriving DecidableEq

/-- Modelled from the spec: an `ffi::PathElement` is a verb together with an
array of four points (the shim reads indices 0 through 3). -/
structure PathElement where
  verb : PathVerb
  points : Fin 4 → FfiPoint

/-- `kurbo::PathEl`. -/
inductive PathEl where
  | moveTo (p : Point)
  | lineTo (p : Point)
  | quadTo (p0 p1 : Point)
  | curveTo (p0 p1 p2 : Point)
  | closePath
  deriving DecidableEq

/-- Modelled from the spec: the host path iterator is an opaque, stateful,
poll-style source consumed sequentially exactly once; it is modelled by the
list of elements it will yield. -/
abbrev PathIterator := List PathElement

/-- The host's `next_element` poll: writes the next element and returns
`true`, or returns `false` when the path is exhausted. -/
def nextElement : PathIterator → Option (PathElement × PathIterator)
  | [] => none
  | el :: rest => some (el, rest)

/-- One call into `vello_encoding::PathEncoder` (`move_to`, `line_to`,
`quad_to`, `cubic_to`, `close`); the encoder itself is external, so only the
trace of calls made by the shim is recorded. -/
inductive PathEncOp where
  | moveTo (x y : Scalar)
  | lineTo (x y : Scalar)
  | quadTo (x0 y0 x1 y1 : Scalar)
  | cubicTo (x0 y0 x1 y1 x2 y2 : Scalar)
  | close
  deriving DecidableEq

/-- Result of polling one of the two iterator adaptations: Rust
`panic!("invalid path verb")` is `panic`, iterator exhaustion is `finished`,
and a produced item is `yield`. -/
inductive Poll (α : Type) where
  | panic
  | finished
  | yield (value : α)
  deriving DecidableEq

/-- `impl Iterator for Pin<&mut ffi::PathIterator>` (encoding.rs lines
228-260): adapts the host iterator to `PathEl` without driving an encoder. -/
def pinIterNext (it : PathIterator) : Poll (PathEl × PathIterator) :=
  match nextElement it with
  | none => .finished
  | some (el, rest) =>
    match el.verb with
    | .moveTo => .yield (.moveTo (Point.fromFfi (el.points 0)), rest)
    | .lineTo => .yield (.lineTo (Point.fromFfi (el.points 1)), rest)
    | .quadTo =>
        .yield (.quadTo (Point.fromFfi (el.points 1)) (Point.fromFfi (el.points 2)), rest)
    | .curveTo =>
        .yield (.curveTo (Point.fromFfi (el.points 1)) (Point.fromFfi (el.points 2))
          (Point.fromFfi (el.points 3)), rest)
    | .close => .yield (.closePath, rest)
    | .invalid _ => .panic

/-- `IterablePathEncoder::next` (encoding.rs lines 147-186): same adaptation,
but each polled element is also encoded through the wrapped `PathEncoder`;
the encoder argument is the trace of calls made so far. -/
def iterEncNext (it : PathIterator) (enc : List PathEncOp) :
    Poll (PathEl × PathIterator × List PathEncOp) :=
  match nextElement it with
  | none => .finished
  | some (el, rest) =>
    match el.verb with
    | .moveTo =>
        let p := el.points 0
        .yield (.moveTo (Point.fromFfi p), rest, enc ++ [.moveTo p.x p.y])
    | .lineTo =>
        let p := el.points 1
        .yield (.lineTo (Point.fromFfi p), rest, enc ++ [.lineTo p.x p.y])
    | .quadTo =>
        let p0 := el.points 1
        let p1 := el.points 2
        .yield (.quadTo (Point.fromFfi p0) (Point.fromFfi p1), rest,
          enc ++ [.quadTo p0.x p0.y p1.x p1.y])
    | .curveTo =>
        let p0 := el.points 1
        let p1 := el.points 2
        let p2 := el.points 3
        .yield (.curveTo (Point.fromFfi p0) (Point.fromFfi p1) (Point.fromFfi p2), rest,
          enc ++ [.cubicTo p0.x p0.y p1.x p1.y p2.x p2.y])
    | .close => .yield (.closePath, rest, enc ++ [.close])
    | .invalid _ => .panic

/-- Runs the plain `Pin<&mut ffi::PathIterator>` adaptation to exhaustion,
collecting the yielded elements; `none` if any poll panics.  The recursive
call is on the tail, which is exactly the iterator state every `yield`
returns. -/
def pinIterRun : PathIterator → Option (List PathEl)
  | [] => some []
  | el :: rest =>
    match pinIterNext (el :: rest) with
    | .panic => none
    | .finished => some []
    | .yield (pe, _) => (pinIterRun rest).map fun els => pe :: els

/-- Runs `IterablePathEncoder` to exhaustion (as `BumpEstimator::count_path`
does when it consumes the whole path), collecting the yielded elements and
the final encoder trace; `none` if any poll panics. -/
def iterEncRun : PathIterator → List PathEncOp → Option (List PathEl × List PathEncOp)
  | [], enc => some ([], enc)
  | el :: rest, enc =>
    match iterEncNext (el :: rest) enc with
    | .panic => none
    | .finished => some ([], enc)
    | .yield (pe, _, enc2) => (iterEncRun rest enc2).map fun r => (pe :: r.1, r.2)

/-- Modelled from the spec: `ffi::Color` carries the four `u8` components
`r, g, b, a`. -/
structure FfiColor where
  r : Byte
  g : Byte
  b : Byte
  a : Byte
  deriving DecidableEq

/-- `peniko::Color` (four `u8` components). -/
structure Color where
  r : Byte
  g : Byte
  b : Byte
  a : Byte
  deriving DecidableEq

/-- `impl From<&ffi::Color> for Color` (encoding.rs lines 287-296): a plain
field copy. -/
def Color.fromFfi (src : FfiColor) : Color :=
  ⟨src.r, src.g, src.b, src.a⟩

/-- Modelled from the spec: the `ffi` brush-kind enum.  The spec says brushes
are "currently solid color only; other kinds are a fatal/unsupported-input
error", and the shim matches only `Solid` with a reachable catch-all arm; any
other kind or representation value is modelled by `other tag`. -/
inductive BrushKind where
  | solid
  | other (tag : Nat)
  deriving DecidableEq

/-- Modelled from the spec: an `ffi::Brush` is a kind tag plus payload data;
the only payload the shim reads is the solid color `data.solid`. -/
structure FfiBrush where
  kind : BrushKind
  solid : FfiColor
  deriving DecidableEq

/-- `peniko::Brush`, restricted to the one variant this shim constructs. -/
inductive Brush where
  | solid (color : Color)
  deriving DecidableEq

/-- `impl From<&ffi::Brush> for Brush` (encoding.rs lines 298-305):
`Solid` converts to a solid-color brush; any other kind is
`panic!("invalid brush kind")`, modelled by `none`. -/
def Brush.fromFfi (src : FfiBrush) : Option Brush :=
  match src.kind with
  | .solid => some (.solid (Color.fromFfi src.solid))
  | .other _ => none

/-- Modelled from the spec: the `ffi` fill-rule enum (`NonZero`, `EvenOdd`,
plus out-of-range representation values `other tag`). -/
inductive FfiFill where
  | nonZero
  | evenOdd
  | other (tag : Nat)
  deriving DecidableEq

/-- `peniko::Fill`. -/
inductive Fill where
  | nonZero
  | evenOdd
  deriving DecidableEq

/-- `impl From<ffi::Fill> for Fill` (encoding.rs lines 307-315): the two
declared values convert to their namesakes; anything else is
`panic!("invalid fill type")`, modelled by `none`. -/
def Fill.fromFfi : FfiFill → Option Fill
  | .nonZero => some .nonZero
  | .evenOdd => some .evenOdd
  | .other _ => none

/-- Modelled from the spec: the `ffi` cap-style enum. -/
inductive CapStyle where
  | butt
  | square
  | round
  | other (tag : Nat)
  deriving DecidableEq

/-- Modelled from the spec: the `ffi` join-style enum. -/
inductive JoinStyle where
  | bevel
  | miter
  | round
  | other (tag : Nat)
  deriving DecidableEq

/-- `kurbo::Cap`. -/
inductive Cap where
  | butt
  | square
  | round
  deriving DecidableEq

/-- `kurbo::Join`. -/
inductive Join where
  | bevel
  | miter
  | round
  deriving DecidableEq

/-- Modelled from the spec: an `ffi::Stroke` carries width, cap, join and
miter limit (the spec lists exactly these stroke inputs); width and miter
limit are `f32`. -/
structure FfiStroke where
  width : Scalar
  miter_limit : Scalar
  cap : CapStyle
  join : JoinStyle
  deriving DecidableEq

/-- `kurbo::Stroke`. -/
structure Stroke where
  width : Scalar
  join : Join
  miter_limit : Scalar
  start_cap : Cap
  end_cap : Cap
  dash_pattern : List Scalar
  dash_offset : Scalar
  deriving DecidableEq

/-- The cap `match` inside `From<&ffi::Stroke> for Stroke` (encoding.rs lines
319-324); the catch-all arm is `panic!("invalid cap style")`. -/
def Cap.fromFfi : CapStyle → Option Cap
  | .butt => some .butt
  | .square => some .square
  | .round => some .round
  | .other _ => none

/-- The join `match` inside `From<&ffi::Stroke> for Stroke` (encoding.rs lines
327-332); the catch-all arm is `panic!("invalid join style")`. -/
def Join.fromFfi : JoinStyle → Option Join
  | .bevel => some .bevel
  | .miter => some .miter
  | .round => some .round
  | .other _ => none

/-- `impl From<&ffi::Stroke> for Stroke` (encoding.rs lines 317-342): the cap
is computed once and used for both `start_cap` and `end_cap`; `width` and
`miter_limit` are the inputs widened `f32 → f64` (exact, modelled as the
identity); `dash_pattern` is `Default::default()` (empty) and `dash_offset`
is `0.`; an invalid cap or join panics (`none`). -/
def Stroke.fromFfi (src : FfiStroke) : Option Stroke :=
  match Cap.fromFfi src.cap with
  | none => none
  | some cap =>
    match Join.fromFfi src.join with
    | none => none
    | some join =>
      some ⟨src.width, join, src.miter_limit, cap, cap, [], 0⟩

/-- Modelled from the spec: `ffi::Affine` holds six `f32` matrix entries. -/
structure FfiAffine where
  matrix : Fin 6 → Scalar

/-- `kurbo::Affine` (six `f64` coefficients). -/
structure Affine where
  coeffs : Fin 6 → Scalar

/-- `impl From<ffi::Affine> for Affine` (encoding.rs lines 274-285): each of
the six entries widened `f32 → f64` (exact, modelled as the identity). -/
def Affine.fromFfi (src : FfiAffine) : Affine :=
  ⟨fun i => src.matrix i⟩

/-- `vello_encoding::Transform`.  `Transform::from_kurbo` is external engine
code; no claim observes the numeric content of a transform, so the model
carries the kurbo affine it was built from. -/
structure Transform where
  kurbo : Affine

/-- The external `Transform::from_kurbo` conversion, as used at the top of
`fill`, `stroke` and `begin_clip`. -/
def Transform.from_kurbo (a : Affine) : Transform :=
  ⟨a⟩

/-- One record appended to the wrapped `vello_encoding::Encoding`.  The engine
that interprets these records is external; the shim's observable effect on it
is the sequence of `encode_*` calls it makes, recorded here in call order.
`path` stands for a whole `encode_path` session: the segment stream written
through the returned `PathEncoder` (with its `is_fill` mode), finished with a
path marker. -/
inductive EncOp where
  | transform (t : Transform)
  | fillStyle (f : Fill)
  | strokeStyle (s : Stroke)
  | path (is_fill : Bool) (ops : List PathEncOp)
  | brush (b : Brush) (alpha : Scalar)
  | beginClip (alpha : Scalar)
  | endClip

/-- The two external engine behaviours `Encoding::encode_path` depends on,
left abstract because their code (in `vello_encoding`) is outside this
repository: `finishCount` is the value `PathEncoder::finish(true)` returns
for a given `is_fill` mode and segment-call trace, and `countPath` is the
`BumpEstimator::count_path` state transition on the element stream. -/
structure VelloApi (EstState : Type) where
  finishCount : Bool → List PathEncOp → Nat
  countPath : EstState → List PathEl → Transform → Option Stroke → EstState

/-- The shim's `Encoding` (encoding.rs lines 18-21): the wrapped engine
encoding (by its call trace) and the bump-estimator state. -/
structure Encoding (EstState : Type) where
  trace : List EncOp
  est : EstState

/-- `Encoding::encode_path` (encoding.rs lines 125-138): wraps the host
iterator in `IterablePathEncoder`, lets the estimator consume it (encoding
the path as a side effect), and returns whether `finish(true)` reported a
nonzero element count.  `none` models the `panic!("invalid path verb")`
escaping from the iterator. -/
def Encoding.encode_path {EstState : Type} (api : VelloApi EstState)
    (e : Encoding EstState) (it : PathIterator) (t : Transform)
    (stroke : Option Stroke) : Option (Encoding EstState × Bool) :=
  match iterEncRun it [] with
  | none => none
  | some (els, ops) =>
    some ({ trace := e.trace ++ [.path stroke.isNone ops],
            est := api.countPath e.est els t stroke },
          decide (api.finishCount stroke.isNone ops ≠ 0))

/-- `Encoding::fill` (encoding.rs lines 47-60): encodes the transform and the
fill style, then the path; the brush is converted and encoded only when
`encode_path` reported a nonzero count.  `none` models any panic (invalid
fill value, invalid path verb, or — only when the brush is reached — invalid
brush kind). -/
def Encoding.fill {EstState : Type} (api : VelloApi EstState)
    (e : Encoding EstState) (style : FfiFill) (transform : FfiAffine)
    (brush : FfiBrush) (path_iter : PathIterator) : Option (Encoding EstState) :=
  let t := Transform.from_kurbo (Affine.fromFfi transform)
  let e1 : Encoding EstState := { e with trace := e.trace ++ [.transform t] }
  match Fill.fromFfi style with
  | none => none
  | some f =>
    let e2 : Encoding EstState := { e1 with trace := e1.trace ++ [.fillStyle f] }
    match e2.encode_path api path_iter t none with
    | none => none
    | some (e3, nonzero) =>
      if nonzero then
        match Brush.fromFfi brush with
        | none => none
        | some b => some { e3 with trace := e3.trace ++ [.brush b 1] }
      else some e3

/-- `Encoding::stroke` (encoding.rs lines 62-79): encodes the transform and
the converted stroke style, then the path (in stroke mode); the brush is
converted and encoded only when `encode_path` reported a nonzero count. -/
def Encoding.stroke {EstState : Type} (api : VelloApi EstState)
    (e : Encoding EstState) (style : FfiStroke) (transform : FfiAffine)
    (brush : FfiBrush) (path_iter : PathIterator) : Option (Encoding EstState) :=
  let t := Transform.from_kurbo (Affine.fromFfi transform)
  let e1 : Encoding EstState := { e with trace := e.trace ++ [.transform t] }
  match Stroke.fromFfi style with
  | none => none
  | some s =>
    let e2 : Encoding EstState := { e1 with trace := e1.trace ++ [.strokeStyle s] }
    match e2.encode_path api path_iter t (some s) with
    | none => none
    | some (e3, nonzero) =>
      if nonzero then
        match Brush.fromFfi brush with
        | none => none
        | some b => some { e3 with trace := e3.trace ++ [.brush b 1] }
      else some e3

/-- `Encoding::begin_clip` (encoding.rs lines 81-87): encodes the transform, a
`NonZero` fill style and the path, then always encodes the begin-clip record
(`Mix::Clip`, alpha 1), whether or not the path was empty. -/
def Encoding.begin_clip {EstState : Type} (api : VelloApi EstState)
    (e : Encoding EstState) (transform : FfiAffine)
    (path_iter : PathIterator) : Option (Encoding EstState) :=
  let t := Transform.from_kurbo (Affine.fromFfi transform)
  let e1 : Encoding EstState := { e with trace := e.trace ++ [.transform t] }
  let e2 : Encoding EstState := { e1 with trace := e1.trace ++ [.fillStyle .nonZero] }
  match e2.encode_path api path_iter t none with
  | none => none
  | some (e3, _) => some { e3 with trace := e3.trace ++ [.beginClip 1] }

/-- `Encoding::end_clip` (encoding.rs lines 89-91). -/
def Encoding.end_clip {EstState : Type} (e : Encoding EstState) : Encoding EstState :=
  { e with trace := e.trace ++ [.endClip] }

/-- `vello_encoding::WorkgroupSize`, a `(u32, u32, u32)` tuple. -/
abbrev WorkgroupSize := Nat × Nat × Nat

/-- `ffi::WorkgroupSize` (fields `x`, `y`, `z`). -/
structure FfiWorkgroupSize where
  x : Nat
  y : Nat
  z : Nat
  deriving DecidableEq

/-- `impl From<&vello_encoding::WorkgroupSize> for ffi::WorkgroupSize`
(encoding.rs lines 344-352). -/
def FfiWorkgroupSize.fromVello (src : WorkgroupSize) : FfiWorkgroupSize :=
  ⟨src.1, src.2.1, src.2.2⟩

/-- `vello_encoding::WorkgroupCounts`, restricted to the fields the shim's
conversion reads (encoding.rs lines 354-377). -/
structure WorkgroupCounts where
  use_large_path_scan : Bool
  path_reduce : WorkgroupSize
  path_reduce2 : WorkgroupSize
  path_scan1 : WorkgroupSize
  path_scan : WorkgroupSize
  bbox_clear : WorkgroupSize
  flatten : WorkgroupSize
  draw_reduce : WorkgroupSize
  draw_leaf : WorkgroupSize
  clip_reduce : WorkgroupSize
  clip_leaf : WorkgroupSize
  binning : WorkgroupSize
  tile_alloc : WorkgroupSize
  path_count_setup : WorkgroupSize
  backdrop : WorkgroupSize
  coarse : WorkgroupSize
  path_tiling_setup : WorkgroupSize
  fine : WorkgroupSize
  deriving DecidableEq

/-- `ffi::DispatchInfo` (the structured workgroup-dispatch descriptor). -/
structure DispatchInfo where
  use_large_path_scan : Bool
  path_reduce : FfiWorkgroupSize
  path_reduce2 : FfiWorkgroupSize
  path_scan1 : FfiWorkgroupSize
  path_scan : FfiWorkgroupSize
  bbox_clear : FfiWorkgroupSize
  flatten : FfiWorkgroupSize
  draw_reduce : FfiWorkgroupSize
  draw_leaf : FfiWorkgroupSize
  clip_reduce : FfiWorkgroupSize
  clip_leaf : FfiWorkgroupSize
  binning : FfiWorkgroupSize
  tile_alloc : FfiWorkgroupSize
  path_count_setup : FfiWorkgroupSize
  backdrop : FfiWorkgroupSize
  coarse : FfiWorkgroupSize
  path_tiling_setup : FfiWorkgroupSize
  fine : FfiWorkgroupSize
  deriving DecidableEq

/-- `impl From<&vello_encoding::WorkgroupCounts> for ffi::DispatchInfo`
(encoding.rs lines 354-377): a plain field-by-field copy. -/
def DispatchInfo.fromVello (src : WorkgroupCounts) : DispatchInfo :=
  ⟨src.use_large_path_scan,
   .fromVello src.path_reduce, .fromVello src.path_reduce2,
   .fromVello src.path_scan1, .fromVello src.path_scan,
   .fromVello src.bbox_clear, .fromVello src.flatten,
   .fromVello src.draw_reduce, .fromVello src.draw_leaf,
   .fromVello src.clip_reduce, .fromVello src.clip_leaf,
   .fromVello src.binning, .fromVello src.tile_alloc,
   .fromVello src.path_count_setup, .fromVello src.backdrop,
   .fromVello src.coarse, .fromVello src.path_tiling_setup,
   .fromVello src.fine⟩

/-- `vello_encoding::BufferSize<T>`, by the two quantities the shim reads:
its element count (`len()`) and its byte size (`size_in_bytes()`). -/
structure BufferSize where
  len : Nat
  size_in_bytes : Nat
  deriving DecidableEq

/-- `vello_encoding::BufferSizes`, restricted to the fields the shim's
conversion reads (encoding.rs lines 379-407). -/
structure BufferSizes where
  path_reduced : BufferSize
  path_reduced2 : BufferSize
  path_reduced_scan : BufferSize
  path_monoids : BufferSize
  path_bboxes : BufferSize
  draw_reduced : BufferSize
  draw_monoids : BufferSize
  info : BufferSize
  clip_inps : BufferSize
  clip_els : BufferSize
  clip_bics : BufferSize
  clip_bboxes : BufferSize
  draw_bboxes : BufferSize
  bump_alloc : BufferSize
  indirect_count : BufferSize
  bin_headers : BufferSize
  paths : BufferSize
  lines : BufferSize
  bin_data : BufferSize
  tiles : BufferSize
  seg_counts : BufferSize
  segments : BufferSize
  ptcl : BufferSize
  deriving DecidableEq

/-- `ffi::BufferSizes` (the structured buffer-size-requirements descriptor):
each field is the corresponding byte size. -/
structure FfiBufferSizes where
  path_reduced : Nat
  path_reduced2 : Nat
  path_reduced_scan : Nat
  path_monoids : Nat
  path_bboxes : Nat
  draw_reduced : Nat
  draw_monoids : Nat
  info : Nat
  clip_inps : Nat
  clip_els : Nat
  clip_bics : Nat
  clip_bboxes : Nat
  draw_bboxes : Nat
  bump_alloc : Nat
  indirect_count : Nat
  bin_headers : Nat
  paths : Nat
  lines : Nat
  bin_data : Nat
  tiles : Nat
  seg_counts : Nat
  segments : Nat
  ptcl : Nat
  deriving DecidableEq

/-- `impl From<&vello_encoding::BufferSizes> for ffi::BufferSizes`
(encoding.rs lines 379-407): copies `size_in_bytes()` of every field. -/
def FfiBufferSizes.fromVello (src : BufferSizes) : FfiBufferSizes :=
  ⟨src.path_reduced.size_in_bytes, src.path_reduced2.size_in_bytes,
   src.path_reduced_scan.size_in_bytes, src.path_monoids.size_in_bytes,
   src.path_bboxes.size_in_bytes, src.draw_reduced.size_in_bytes,
   src.draw_monoids.size_in_bytes, src.info.size_in_bytes,
   src.clip_inps.size_in_bytes, src.clip_els.size_in_bytes,
   src.clip_bics.size_in_bytes, src.clip_bboxes.size_in_bytes,
   src.draw_bboxes.size_in_bytes, src.bump_alloc.size_in_bytes,
   src.indirect_count.size_in_bytes, src.bin_headers.size_in_bytes,
   src.paths.size_in_bytes, src.lines.size_in_bytes,
   src.bin_data.size_in_bytes, src.tiles.size_in_bytes,
   src.seg_counts.size_in_bytes, src.segments.size_in_bytes,
   src.ptcl.size_in_bytes⟩

/-- `vello_encoding::RenderConfig`, by the three fields the shim reads or
patches.  The parameter `n` stands for the compile-time constant
`std::mem::size_of::<vello_encoding::ConfigUniform>()`; the `gpu :
ConfigUniform` value is modelled by its `bytemuck` byte image, whose length
`bytemuck::bytes_of` guarantees to be exactly `size_of` (`gpu_size`). -/
structure RenderConfig (n : Nat) where
  gpuBytes : List Byte
  gpu_size : gpuBytes.length = n
  workgroup_counts : WorkgroupCounts
  buffer_sizes : BufferSizes

/-- The shim's `RenderConfiguration` (encoding.rs lines 188-191): the packed
scene bytes and the render configuration. -/
structure RenderConfiguration (n : Nat) where
  packed_scene : List Byte
  config : RenderConfig n

/-- `RenderConfiguration::config_uniform_buffer_size` (encoding.rs lines
194-196): takes `&self` and returns `size_of::<ConfigUniform>()`, ignoring
the configuration.  `&self` methods are modelled in state-passing style,
returning the (unchanged) receiver with the result. -/
def RenderConfiguration.config_uniform_buffer_size {n : Nat}
    (self : RenderConfiguration n) : RenderConfiguration n × Nat :=
  (self, n)

/-- `RenderConfiguration::scene_buffer_size` (encoding.rs lines 198-200):
the length of the packed scene. -/
def RenderConfiguration.scene_buffer_size {n : Nat}
    (self : RenderConfiguration n) : RenderConfiguration n × Nat :=
  (self, self.packed_scene.length)

/-- `RenderConfiguration::workgroup_counts` (encoding.rs lines 219-221):
converts the configuration's workgroup counts to the `ffi` descriptor. -/
def RenderConfiguration.workgroup_counts {n : Nat}
    (self : RenderConfiguration n) : RenderConfiguration n × DispatchInfo :=
  (self, DispatchInfo.fromVello self.config.workgroup_counts)

/-- `RenderConfiguration::buffer_sizes` (encoding.rs lines 223-225):
converts the configuration's buffer sizes to the `ffi` descriptor. -/
def RenderConfiguration.buffer_sizes {n : Nat}
    (self : RenderConfiguration n) : RenderConfiguration n × FfiBufferSizes :=
  (self, FfiBufferSizes.fromVello self.config.buffer_sizes)

/-- Rust `slice::copy_from_slice`: panics (`none`) unless the two slices have
equal lengths; on success the destination holds a copy of the source. -/
def copyFromSlice (dst src : List Byte) : Option (List Byte) :=
  if dst.length = src.length then some src else none

/-- `RenderConfiguration::write_config_uniform_buffer` (encoding.rs lines
202-209): with `bytes = bytemuck::bytes_of(&self.config.gpu)`, returns
`false` (destination untouched) when the destination is shorter than
`bytes`, and otherwise calls `out_buffer.copy_from_slice(bytes)`.  The
result is `none` when the Rust code panics, otherwise
`some (returnValue, finalDestination)`. -/
def RenderConfiguration.write_config_uniform_buffer {n : Nat}
    (self : RenderConfiguration n) (out_buffer : List Byte) :
    Option (Bool × List Byte) :=
  let bytes := self.config.gpuBytes
  if out_buffer.length < bytes.length then
    some (false, out_buffer)
  else
    match copyFromSlice out_buffer bytes with
    | none => none
    | some written => some (true, written)

/-- `RenderConfiguration::write_scene_buffer` (encoding.rs lines 211-217):
returns `false` (destination untouched) when the destination is shorter than
the packed scene, and otherwise calls
`out_buffer.copy_from_slice(&self.packed_scene)`. -/
def RenderConfiguration.write_scene_buffer {n : Nat}
    (self : RenderConfiguration n) (out_buffer : List Byte) :
    Option (Bool × List Byte) :=
  if out_buffer.length < self.packed_scene.length then
    some (false, out_buffer)
  else
    match copyFromSlice out_buffer self.packed_scene with
    | none => none
    | some written => some (true, written)

/-- The four buffer estimates `BumpEstimator::tally` returns
(`bump_estimate.binning`, `.seg_counts`, `.segments`, `.lines`). -/
structure BumpEstimate where
  binning : BufferSize
  seg_counts : BufferSize
  segments : BufferSize
  lines : BufferSize

/-- The external engine behaviours `prepare_render` calls into, left abstract
because their code (in `vello_encoding`) is outside this repository:
`resolve` is `resolve_solid_paths_only` (the packed scene bytes it writes),
`mkConfig` is `RenderConfig::new` on the resolved layout together with the
render dimensions and background color, `tally` is `BumpEstimator::tally`,
and `patchGpu` writes the four bump-estimate element counts into the
`ConfigUniform` byte image (a field update, so it preserves the image's
length `n`). -/
structure RenderApi (EstState : Type) (n : Nat) where
  resolve : List EncOp → List Byte
  mkConfig : List EncOp → Nat → Nat → Color → RenderConfig n
  tally : EstState → BumpEstimate
  patchGpu : List Byte → BumpEstimate → { l : List Byte // l.length = n }

/-- `Encoding::prepare_render` (encoding.rs lines 98-123): takes `&self`;
resolves the encoding into the packed scene, builds the render configuration
from the resolved layout, the dimensions and the background color, then
patches the four bump-estimate buffer sizes into `config.buffer_sizes` and
the four element counts into `config.gpu`.  Modelled in state-passing style;
the body never writes to the encoder or estimator state. -/
def Encoding.prepare_render {EstState : Type} {n : Nat}
    (api : RenderApi EstState n) (self : Encoding EstState)
    (width height : Nat) (background : FfiColor) :
    Encoding EstState × RenderConfiguration n :=
  let packed_scene := api.resolve self.trace
  let config := api.mkConfig self.trace width height (Color.fromFfi background)
  let bump_estimate := api.tally self.est
  let patched := api.patchGpu config.gpuBytes bump_estimate
  let config2 : RenderConfig n :=
    { gpuBytes := patched.1,
      gpu_size := patched.2,
      workgroup_counts := config.workgroup_counts,
      buffer_sizes :=
        { config.buffer_sizes with
            bin_data := bump_estimate.binning,
            seg_counts := bump_estimate.seg_counts,
            segments := bump_estimate.segments,
            lines := bump_estimate.lines } }
  (self, { packed_scene := packed_scene, config := config2 })

/-- A concrete engine model for evaluating the encoding operations:
`finish` reports the number of recorded segment calls, and the estimator
state counts the elements it has consumed. -/
def c9Api : VelloApi Nat :=
  ⟨fun _ ops => ops.length, fun st els _ _ => st + els.length⟩

/-- A concrete affine input. -/
def c9Aff : FfiAffine :=
  ⟨fun _ => 0⟩

/-- The transform the shim derives from `c9Aff`. -/
def c9T : Transform :=
  Transform.from_kurbo (Affine.fromFfi c9Aff)

/-- A concrete solid brush input. -/
def c9Brush : FfiBrush :=
  ⟨.solid, ⟨1, 2, 3, 4⟩⟩

/-- A concrete one-element (move-to) path. -/
def c9It : PathIterator :=
  [⟨PathVerb.moveTo, fun _ => ⟨1, 2⟩⟩]

/-- An empty starting encoding with estimator state 0. -/
def c9Enc : Encoding Nat :=
  ⟨[], 0⟩

/-- A zero workgroup-counts value, used to build concrete configurations. -/
def wcZero : WorkgroupCounts :=
  ⟨false, (0, 0, 0), (0, 0, 0), (0, 0, 0), (0, 0, 0), (0, 0, 0), (0, 0, 0),
   (0, 0, 0), (0, 0, 0), (0, 0, 0), (0, 0, 0), (0, 0, 0), (0, 0, 0),
   (0, 0, 0), (0, 0, 0), (0, 0, 0), (0, 0, 0), (0, 0, 0)⟩

/-- A zero buffer-sizes value, used to build concrete configurations. -/
def bsZero : BufferSizes :=
  ⟨⟨0, 0⟩, ⟨0, 0⟩, ⟨0, 0⟩, ⟨0, 0⟩, ⟨0, 0⟩, ⟨0, 0⟩, ⟨0, 0⟩, ⟨0, 0⟩, ⟨0, 0⟩,
   ⟨0, 0⟩, ⟨0, 0⟩, ⟨0, 0⟩, ⟨0, 0⟩, ⟨0, 0⟩, ⟨0, 0⟩, ⟨0, 0⟩, ⟨0, 0⟩, ⟨0, 0⟩,
   ⟨0, 0⟩, ⟨0, 0⟩, ⟨0, 0⟩, ⟨0, 0⟩, ⟨0, 0⟩⟩

/-- A concrete configuration whose packed scene has 2 bytes and whose
configuration-uniform image has 1 byte. -/
def rcC1 : RenderConfiguration 1 :=
  ⟨[10, 20], ⟨[7], rfl, wcZero, bsZero⟩⟩

/-- A concrete configuration whose packed scene has 2 bytes and whose
configuration-uniform image has 1 byte. -/
def rcC2 : RenderConfiguration 1 :=
  ⟨[1, 2], ⟨[3], rfl, wcZero, bsZero⟩⟩

/-- Claim C1 states that every destination at least as large as the required
size succeeds.  The code refutes this for strictly larger destinations: the
guard admits them, but `copy_from_slice` then panics because the slice
lengths differ.  This theorem evaluates the model at such a failing input: a
3-byte destination for a 2-byte scene and a 2-byte destination for a 1-byte
configuration uniform both end in a panic (`none`) instead of returning
`true`. -/
theorem C1_oversized_destination_panics :
    (rcC1.scene_buffer_size).2 = 2 ∧
    (rcC1.config_uniform_buffer_size).2 = 1 ∧
    rcC1.write_scene_buffer [0, 0, 0] = none ∧
    rcC1.write_config_uniform_buffer [0, 0] = none ∧
    rcC1.write_scene_buffer [0, 0] = some (true, [10, 20]) ∧
    rcC1.write_config_uniform_buffer [0] = some (true, [7]) := by
  refine ⟨rfl, rfl, rfl, rfl, rfl, rfl⟩

/-- Claim C2: an undersized destination makes both write operations return
`false` without panicking, and the destination bytes are unchanged. -/
theorem C2_undersized_destination_fails_cleanly {n : Nat}
    (rc : RenderConfiguration n) (out1 out2 : List Byte)
    (h1 : out1.length < (rc.scene_buffer_size).2)
    (h2 : out2.length < (rc.config_uniform_buffer_size).2) :
    rc.write_scene_buffer out1 = some (false, out1) ∧
    rc.write_config_uniform_buffer out2 = some (false, out2) := by
  constructor
  · have h1b : out1.length < rc.packed_scene.length := h1
    simp only [RenderConfiguration.write_scene_buffer]
    rw [if_pos h1b]
  · have h2b : out2.length < rc.config.gpuBytes.length := by
      rw [rc.config.gpu_size]
      exact h2
    simp only [RenderConfiguration.write_config_uniform_buffer]
    rw [if_pos h2b]

/-- Witness for C2 at a concrete configuration and concrete undersized
destinations. -/
theorem C2_witness :
    (([0] : List Byte).length < (rcC2.scene_buffer_size).2 ∧
      (([] : List Byte)).length < (rcC2.config_uniform_buffer_size).2) ∧
    rcC2.write_scene_buffer [0] = some (false, [0]) ∧
    rcC2.write_config_uniform_buffer [] = some (false, []) :=
  ⟨⟨by decide, by decide⟩,
   C2_undersized_destination_fails_cleanly rcC2 [0] [] (by decide) (by decide)⟩

/-- Claim C3: converting a non-`Solid` brush panics; converting a `Solid`
brush yields a solid-color brush carrying exactly the input components. -/
theorem C3_brush_conversion (b : FfiBrush) :
    (∀ tag, b.kind = .other tag → Brush.fromFfi b = none) ∧
    (b.kind = .solid →
      Brush.fromFfi b = some (.solid ⟨b.solid.r, b.solid.g, b.solid.b, b.solid.a⟩)) := by
  constructor
  · intro tag h
    simp [Brush.fromFfi, h]
  · intro h
    simp [Brush.fromFfi, h, Color.fromFfi]

/-- Witness for C3 at a concrete unsupported brush and a concrete solid
brush. -/
theorem C3_witness :
    ((⟨BrushKind.other 5, ⟨1, 2, 3, 4⟩⟩ : FfiBrush).kind = .other 5 ∧
      Brush.fromFfi ⟨BrushKind.other 5, ⟨1, 2, 3, 4⟩⟩ = none) ∧
    ((⟨BrushKind.solid, ⟨1, 2, 3, 4⟩⟩ : FfiBrush).kind = .solid ∧
      Brush.fromFfi ⟨BrushKind.solid, ⟨1, 2, 3, 4⟩⟩ = some (.solid ⟨1, 2, 3, 4⟩)) :=
  ⟨⟨rfl, (C3_brush_conversion ⟨BrushKind.other 5, ⟨1, 2, 3, 4⟩⟩).1 5 rfl⟩,
   ⟨rfl, (C3_brush_conversion ⟨BrushKind.solid, ⟨1, 2, 3, 4⟩⟩).2 rfl⟩⟩

/-- Claim C4: the fill, cap and join conversions map each listed value to its
namesake and panic on every other value; an invalid cap or join makes the
whole stroke conversion panic. -/
theorem C4_enum_conversions (src : FfiStroke) :
    (Fill.fromFfi .nonZero = some .nonZero ∧ Fill.fromFfi .evenOdd = some .evenOdd) ∧
    (∀ tag, Fill.fromFfi (.other tag) = none) ∧
    (Cap.fromFfi .butt = some .butt ∧ Cap.fromFfi .square = some .square ∧
      Cap.fromFfi .round = some .round) ∧
    (Join.fromFfi .bevel = some .bevel ∧ Join.fromFfi .miter = some .miter ∧
      Join.fromFfi .round = some .round) ∧
    (∀ tag, src.cap = .other tag → Stroke.fromFfi src = none) ∧
    (∀ tag, src.join = .other tag → Stroke.fromFfi src = none) ∧
    (∀ cap join, Cap.fromFfi src.cap = some cap → Join.fromFfi src.join = some join →
      Stroke.fromFfi src = some ⟨src.width, join, src.miter_limit, cap, cap, [], 0⟩) := by
  refine ⟨⟨rfl, rfl⟩, fun tag => rfl, ⟨rfl, rfl, rfl⟩, ⟨rfl, rfl, rfl⟩, ?_, ?_, ?_⟩
  · intro tag h
    simp [Stroke.fromFfi, h, Cap.fromFfi]
  · intro tag h
    cases hc : Cap.fromFfi src.cap <;>
      simp [Stroke.fromFfi, hc, h, Join.fromFfi]
  · intro cap join hc hj
    simp [Stroke.fromFfi, hc, hj]

/-- Witness for C4 at concrete strokes: an invalid cap and an invalid join
each panic, and fully valid inputs convert to the matching enumerators. -/
theorem C4_witness :
    Stroke.fromFfi ⟨5, 7, CapStyle.other 1, JoinStyle.bevel⟩ = none ∧
    Stroke.fromFfi ⟨5, 7, CapStyle.butt, JoinStyle.other 2⟩ = none ∧
    Stroke.fromFfi ⟨5, 7, CapStyle.butt, JoinStyle.round⟩ =
      some ⟨5, .round, 7, .butt, .butt, [], 0⟩ :=
  ⟨(C4_enum_conversions ⟨5, 7, CapStyle.other 1, JoinStyle.bevel⟩).2.2.2.2.1 1 rfl,
   (C4_enum_conversions ⟨5, 7, CapStyle.butt, JoinStyle.other 2⟩).2.2.2.2.2.1 2 rfl,
   (C4_enum_conversions ⟨5, 7, CapStyle.butt, JoinStyle.round⟩).2.2.2.2.2.2
     Cap.butt Join.round rfl rfl⟩

/-- Claim C10: `config_uniform_buffer_size` returns the byte size of the GPU
configuration uniform type and ignores the configuration entirely, so any
two configurations report equal sizes. -/
theorem C10_config_uniform_buffer_size_constant {n : Nat}
    (rc rc₂ : RenderConfiguration n) :
    (rc.config_uniform_buffer_size).2 = n ∧
    (rc.config_uniform_buffer_size).2 = (rc₂.config_uniform_buffer_size).2 :=
  ⟨rfl, rfl⟩

/-- Claim C5: polling either iterator adaptation on an element with an
out-of-range verb panics; on each of the five supported verbs it yields the
corresponding `PathEl` built from the element's point array (index 0 for a
move target, indices 1 to 3 for the line, quadratic and cubic targets), and
the encoder-driving adaptation additionally records the matching encoder
call. -/
theorem C5_path_verb_polling (el : PathElement) (rest : PathIterator)
    (enc : List PathEncOp) :
    (∀ tag, el.verb = .invalid tag →
      iterEncNext (el :: rest) enc = .panic ∧ pinIterNext (el :: rest) = .panic) ∧
    (el.verb = .moveTo →
      iterEncNext (el :: rest) enc =
        .yield (.moveTo (Point.fromFfi (el.points 0)), rest,
          enc ++ [.moveTo (el.points 0).x (el.points 0).y]) ∧
      pinIterNext (el :: rest) = .yield (.moveTo (Point.fromFfi (el.points 0)), rest)) ∧
    (el.verb = .lineTo →
      iterEncNext (el :: rest) enc =
        .yield (.lineTo (Point.fromFfi (el.points 1)), rest,
          enc ++ [.lineTo (el.points 1).x (el.points 1).y]) ∧
      pinIterNext (el :: rest) = .yield (.lineTo (Point.fromFfi (el.points 1)), rest)) ∧
    (el.verb = .quadTo →
      iterEncNext (el :: rest) enc =
        .yield (.quadTo (Point.fromFfi (el.points 1)) (Point.fromFfi (el.points 2)), rest,
          enc ++ [.quadTo (el.points 1).x (el.points 1).y (el.points 2).x (el.points 2).y]) ∧
      pinIterNext (el :: rest) =
        .yield (.quadTo (Point.fromFfi (el.points 1)) (Point.fromFfi (el.points 2)), rest)) ∧
    (el.verb = .curveTo →
      iterEncNext (el :: rest) enc =
        .yield (.curveTo (Point.fromFfi (el.points 1)) (Point.fromFfi (el.points 2))
            (Point.fromFfi (el.points 3)), rest,
          enc ++ [.cubicTo (el.points 1).x (el.points 1).y (el.points 2).x (el.points 2).y
            (el.points 3).x (el.points 3).y]) ∧
      pinIterNext (el :: rest) =
        .yield (.curveTo (Point.fromFfi (el.points 1)) (Point.fromFfi (el.points 2))
          (Point.fromFfi (el.points 3)), rest)) ∧
    (el.verb = .close →
      iterEncNext (el :: rest) enc = .yield (.closePath, rest, enc ++ [.close]) ∧
      pinIterNext (el :: rest) = .yield (.closePath, rest)) := by
  refine ⟨?_, ?_, ?_, ?_, ?_, ?_⟩ <;> intro _ <;>
    first
    | (intro h
       constructor <;> simp [iterEncNext, pinIterNext, nextElement, h])
    | skip
  all_goals
    rename_i h
    constructor <;> simp [iterEncNext, pinIterNext, nextElement, h]

/-- Witness for C5 at concrete elements: an out-of-range verb panics, and a
move element yields the move path element while recording the encoder
call. -/
theorem C5_witness :
    iterEncNext [⟨PathVerb.invalid 9, fun _ => ⟨0, 0⟩⟩] [] = .panic ∧
    iterEncNext [⟨PathVerb.moveTo, fun _ => ⟨1, 2⟩⟩] [] =
      .yield (.moveTo ⟨1, 2⟩, [], [.moveTo 1 2]) ∧
    pinIterNext [⟨PathVerb.moveTo, fun _ => ⟨1, 2⟩⟩] =
      .yield (.moveTo ⟨1, 2⟩, []) :=
  ⟨((C5_path_verb_polling ⟨PathVerb.invalid 9, fun _ => ⟨0, 0⟩⟩ [] []).1 9 rfl).1,
   ((C5_path_verb_polling ⟨PathVerb.moveTo, fun _ => ⟨1, 2⟩⟩ [] []).2.1 rfl).1,
   ((C5_path_verb_polling ⟨PathVerb.moveTo, fun _ => ⟨1, 2⟩⟩ [] []).2.1 rfl).2⟩

/-- Helper for C6: prepending an element commutes with projecting away the
encoder trace. -/
theorem map_fst_cons_aux (o : Option (List PathEl × List PathEncOp))
    (q : Option (List PathEl)) (pe : PathEl) (h : o.map Prod.fst = q) :
    (o.map fun r => (pe :: r.1, r.2)).map Prod.fst = q.map fun els => pe :: els := by
  subst h
  cases o <;> simp

/-- Claim C6: on the same underlying element sequence, the encoder-driving
adaptation and the plain adaptation yield the identical sequence of `PathEl`
values (same verbs, same points, same point-array indices): projecting the
encoder trace away from a full run of `IterablePathEncoder` gives exactly
the full run of the plain iterator, for every starting encoder trace. -/
theorem C6_adapters_yield_same_elements (it : PathIterator) (enc : List PathEncOp) :
    (iterEncRun it enc).map Prod.fst = pinIterRun it := by
  induction it generalizing enc with
  | nil => rfl
  | cons el rest ih =>
    cases hv : el.verb <;>
      simp only [iterEncRun, iterEncNext, pinIterRun, pinIterNext, nextElement, hv] <;>
      first
      | rfl
      | exact map_fst_cons_aux _ _ _ (ih _)

/-- Claim C7: `prepare_render` leaves the encoder and estimator state exactly
as they were, and the four configuration accessors return their result
without changing the configuration. -/
theorem C7_prepare_render_and_accessors_read_only {EstState : Type} {n : Nat}
    (api : RenderApi EstState n) (e : Encoding EstState)
    (width height : Nat) (background : FfiColor) (rc : RenderConfiguration n) :
    (e.prepare_render api width height background).1 = e ∧
    (rc.config_uniform_buffer_size).1 = rc ∧
    (rc.scene_buffer_size).1 = rc ∧
    (rc.workgroup_counts).1 = rc ∧
    (rc.buffer_sizes).1 = rc :=
  ⟨rfl, rfl, rfl, rfl, rfl⟩

/-- Claim C8: every successfully converted stroke has equal start and end
caps, an empty dash pattern, a zero dash offset, and width and miter limit
equal to the input values (the `f32 → f64` widening being exact). -/
theorem C8_stroke_conversion_fields (src : FfiStroke) (st : Stroke)
    (h : Stroke.fromFfi src = some st) :
    st.start_cap = st.end_cap ∧ st.dash_pattern = [] ∧ st.dash_offset = 0 ∧
    st.width = src.width ∧ st.miter_limit = src.miter_limit := by
  cases hc : Cap.fromFfi src.cap with
  | none => simp [Stroke.fromFfi, hc] at h
  | some cap =>
    cases hj : Join.fromFfi src.join with
    | none => simp [Stroke.fromFfi, hc, hj] at h
    | some join =>
      simp only [Stroke.fromFfi, hc, hj, Option.some.injEq] at h
      subst h
      exact ⟨rfl, rfl, rfl, rfl, rfl⟩

/-- Witness for C8 at a concrete stroke. -/
theorem C8_witness :
    Stroke.fromFfi ⟨3, 4, CapStyle.round, JoinStyle.miter⟩ =
      some ⟨3, Join.miter, 4, Cap.round, Cap.round, [], 0⟩ ∧
    ((⟨3, Join.miter, 4, Cap.round, Cap.round, [], 0⟩ : Stroke).start_cap =
        (⟨3, Join.miter, 4, Cap.round, Cap.round, [], 0⟩ : Stroke).end_cap ∧
      (⟨3, Join.miter, 4, Cap.round, Cap.round, [], 0⟩ : Stroke).dash_pattern = [] ∧
      (⟨3, Join.miter, 4, Cap.round, Cap.round, [], 0⟩ : Stroke).dash_offset = 0 ∧
      (⟨3, Join.miter, 4, Cap.round, Cap.round, [], 0⟩ : Stroke).width =
        (⟨3, 4, CapStyle.round, JoinStyle.miter⟩ : FfiStroke).width ∧
      (⟨3, Join.miter, 4, Cap.round, Cap.round, [], 0⟩ : Stroke).miter_limit =
        (⟨3, 4, CapStyle.round, JoinStyle.miter⟩ : FfiStroke).miter_limit) :=
  ⟨rfl,
   C8_stroke_conversion_fields ⟨3, 4, CapStyle.round, JoinStyle.miter⟩
     ⟨3, Join.miter, 4, Cap.round, Cap.round, [], 0⟩ rfl⟩

/-- Claim C9: `fill` and `stroke` always encode the transform and the
fill/stroke style, and encode the brush exactly when `encode_path` reported a
nonzero element count; `begin_clip` encodes the begin-clip record
unconditionally.  Stated as the exact call trace each operation appends, for
every behaviour of the external engine (`api`). -/
theorem C9_brush_iff_nonempty_path {EstState : Type} (api : VelloApi EstState)
    (e : Encoding EstState) (style : FfiFill) (f : Fill) (st : FfiStroke)
    (s : Stroke) (transform : FfiAffine) (t : Transform) (brush : FfiBrush)
    (b : Brush) (it : PathIterator) (els : List PathEl) (ops : List PathEncOp)
    (hT : t = Transform.from_kurbo (Affine.fromFfi transform))
    (hf : Fill.fromFfi style = some f)
    (hs : Stroke.fromFfi st = some s)
    (hb : Brush.fromFfi brush = some b)
    (hit : iterEncRun it [] = some (els, ops)) :
    (Encoding.fill api e style transform brush it =
      some { trace := e.trace ++ [.transform t, .fillStyle f, .path true ops] ++
                (if api.finishCount true ops ≠ 0 then [.brush b 1] else []),
             est := api.countPath e.est els t none }) ∧
    (Encoding.stroke api e st transform brush it =
      some { trace := e.trace ++ [.transform t, .strokeStyle s, .path false ops] ++
                (if api.finishCount false ops ≠ 0 then [.brush b 1] else []),
             est := api.countPath e.est els t (some s) }) ∧
    (Encoding.begin_clip api e transform it =
      some { trace := e.trace ++
                [.transform t, .fillStyle .nonZero, .path true ops, .beginClip 1],
             est := api.countPath e.est els t none }) := by
  subst hT
  refine ⟨?_, ?_, ?_⟩
  · by_cases hn : api.finishCount true ops = 0
    · simp [Encoding.fill, Encoding.encode_path, hf, hit, hn]
    · simp [Encoding.fill, Encoding.encode_path, hf, hit, hb, hn]
  · by_cases hn : api.finishCount false ops = 0
    · simp [Encoding.stroke, Encoding.encode_path, hs, hit, hn]
    · simp [Encoding.stroke, Encoding.encode_path, hs, hit, hb, hn]
  · simp [Encoding.begin_clip, Encoding.encode_path, hit]

/-- Witness for C9 at a concrete engine model, a one-element path (so the
finish count is 1 and the brush is encoded) and concrete style, transform and
brush inputs. -/
theorem C9_witness :
    Fill.fromFfi FfiFill.nonZero = some Fill.nonZero ∧
    iterEncRun c9It [] = some ([PathEl.moveTo ⟨1, 2⟩], [PathEncOp.moveTo 1 2]) ∧
    Encoding.fill c9Api c9Enc .nonZero c9Aff c9Brush c9It =
      some { trace := [.transform c9T, .fillStyle .nonZero,
                       .path true [PathEncOp.moveTo 1 2],
                       .brush (.solid ⟨1, 2, 3, 4⟩) 1],
             est := 1 } := by
  refine ⟨rfl, rfl, ?_⟩
  have h := (C9_brush_iff_nonempty_path c9Api c9Enc .nonZero .nonZero
    ⟨3, 4, .butt, .bevel⟩ ⟨3, .bevel, 4, .butt, .butt, [], 0⟩ c9Aff c9T c9Brush
    (.solid ⟨1, 2, 3, 4⟩) c9It [PathEl.moveTo ⟨1, 2⟩] [PathEncOp.moveTo 1 2]
    rfl rfl rfl rfl rfl).1
  simpa [c9Api, c9Enc, c9T] using h

end SkiaVello
